import Mathlib

/-!
Verification development for the Nand2Tetris-style toolchain
(Jack compiler → VM translator → Hack assembler) implemented in C.

Each namespace below is a shallow embedding of one stage of the pipeline,
translated from the corresponding C sources:

* `Hack`      — shared helpers (character-level string utilities, `atoi`).
* `Assembler` — `src/Assembler` (two-pass assembler: `Code.c`, `Parser.c`,
                `SymbolTable.c`, `Assembler.c`).
* `VM`        — `src/VirtualMachine` (`CodeWriter.c`, `Parser.c`,
                `VMTranslator.c`).
* `Compiler`  — the Jack compiler, whose sources are split over
                `src/Compiler` and `src/CCompiler` (`SymbolTable.c`,
                `Expressions.c`, `Statements.c`, `Declarations.c`,
                `Utils.c`, `VMWriter.c`, `CompilationEngine.c`).

File handles are modelled as accumulated lists of emitted lines; `exit(1)`
paths are modelled with `Except String`; C strings are Lean `String`s,
manipulated through their character lists so that everything is executable.
-/

namespace Hack

/-- Whitespace predicate matching C `isspace` on the characters that occur
in the tool inputs (space, tab, newline, carriage return). -/
def isSpaceChar (c : Char) : Bool :=
  c = ' ' ∨ c = '\t' ∨ c = '\n' ∨ c = '\r'

/-- Value of a digit character, as computed by `c - '0'` in C. -/
def digitVal (c : Char) : Nat :=
  c.toNat - '0'.toNat

/-- Value of a list of decimal digit characters (most significant first). -/
def digitsVal (l : List Char) : Nat :=
  l.foldl (fun a c => a * 10 + digitVal c) 0

/-- C `atoi` on a whitespace-free string: optional sign, then the longest
prefix of decimal digits. -/
def atoiChars : List Char → Int
  | [] => 0
  | '-' :: rest => -(digitsVal (rest.takeWhile Char.isDigit) : Int)
  | '+' :: rest => (digitsVal (rest.takeWhile Char.isDigit) : Int)
  | l => (digitsVal (l.takeWhile Char.isDigit) : Int)

/-- C `atoi` lifted to `String`. -/
def atoi (s : String) : Int :=
  atoiChars s.data

/-- Truncate a character list at the first occurrence of `//`
(the comment-stripping step shared by both line parsers). -/
def stripComment : List Char → List Char
  | [] => []
  | '/' :: '/' :: _ => []
  | c :: rest => c :: stripComment rest

/-- Split a character list into maximal whitespace-free runs
(the effect of repeated `strtok(_, " \t\n\r")`). -/
def splitWsAux (cur : List Char) (acc : List (List Char)) : List Char → List (List Char)
  | [] => if cur = [] then acc.reverse else (cur.reverse :: acc).reverse
  | c :: rest =>
    if isSpaceChar c then
      if cur = [] then splitWsAux [] acc rest
      else splitWsAux [] (cur.reverse :: acc) rest
    else splitWsAux (c :: cur) acc rest

/-- Tokenize a string by whitespace, as `strtok` with delimiters `" \t\n\r"`. -/
def wsTokens (s : String) : List String :=
  (splitWsAux [] [] s.data).map String.mk

end Hack

namespace Assembler

/-!
Embedding of `src/Assembler`.  The symbol table (`SymbolTable.c`) is a
singly linked list with tail insertion; we model it as a `List (String × Nat)`
in insertion order together with the `romAddress` / `ramAddress` counters.
-/

/-- Linked-list search of `SymbolTable.c:contains` (head to tail). -/
def contains : List (String × Nat) → String → Bool
  | [], _ => false
  | (m, _) :: rest, n => if m = n then true else contains rest n

/-- Linked-list lookup of `SymbolTable.c:getAddress`; `0xFFFF` when absent. -/
def getAddress : List (String × Nat) → String → Nat
  | [], _ => 65535
  | (m, a) :: rest, n => if m = n then a else getAddress rest n

/-- Assembler symbol table state (`Config.h`): entry list plus the two
counters maintained alongside it. -/
structure SymbolTable where
  entries : List (String × Nat)
  romAddress : Nat
  ramAddress : Nat
deriving DecidableEq

/-- `SymbolTable.c:addEntry`: tail insertion, but only when the symbol is
not already present. -/
def addEntry (t : SymbolTable) (symbol : String) (address : Nat) : SymbolTable :=
  if contains t.entries symbol then t
  else { t with entries := t.entries ++ [(symbol, address)] }

/-- Insertion order of the predefined symbols in `SymbolTable.c:initSymbolTable`. -/
def predefinedSymbols : List (String × Nat) :=
  [("SP", 0), ("LCL", 1), ("ARG", 2), ("THIS", 3), ("THAT", 4),
   ("R0", 0), ("R1", 1), ("R2", 2), ("R3", 3), ("R4", 4), ("R5", 5),
   ("R6", 6), ("R7", 7), ("R8", 8), ("R9", 9), ("R10", 10), ("R11", 11),
   ("R12", 12), ("R13", 13), ("R14", 14), ("R15", 15),
   ("SCREEN", 16384), ("KBD", 24576)]

/-- Apply a sequence of `addEntry` calls in order. -/
def runAddEntries (t : SymbolTable) (ops : List (String × Nat)) : SymbolTable :=
  ops.foldl (fun t p => addEntry t p.1 p.2) t

/-- `SymbolTable.c:initSymbolTable`: empty list, `romAddress = 0`,
`ramAddress = 16`, then the 23 predefined `addEntry` calls. -/
def initSymbolTable : SymbolTable :=
  runAddEntries { entries := [], romAddress := 0, ramAddress := 16 } predefinedSymbols

/-- `Parser.c:isNumber`: non-empty, `strtol` consumes the whole string
(optional sign followed by at least one digit; inputs are whitespace-free
because `removeWhitespace` deleted every space). -/
def isNumber (s : String) : Bool :=
  match s.data with
  | [] => false
  | '-' :: rest => rest ≠ [] ∧ rest.all Char.isDigit
  | '+' :: rest => rest ≠ [] ∧ rest.all Char.isDigit
  | l => l.all Char.isDigit

/-- Bit characters produced by the emission loop of `Code.c:convertAddress`
(`for i = 14..0: binary[15-i] = (addr >> i) & 1`); in the branch where it
runs, `addr` is non-negative, so the C `int` shifts agree with `Nat` shifts. -/
def bits15 (m : Nat) : List Char :=
  (List.range 15).map fun k => if (m >>> (14 - k)) &&& 1 = 1 then '1' else '0'

/-- `Code.c:convertAddress`: `atoi`, range check with `exit(1)` on failure,
otherwise `'0'` followed by the 15 bit characters. -/
def convertAddress (address : String) : Except String String :=
  let addr := Hack.atoi address
  if addr < 0 ∨ addr > 32767 then .error "Address out of range"
  else .ok (String.mk ('0' :: bits15 addr.toNat))

/-- Destination mnemonics accepted by `Code.c:convertDest`. -/
def isDestMnemonic (s : String) : Bool :=
  s = "M" ∨ s = "D" ∨ s = "MD" ∨ s = "A" ∨ s = "AM" ∨ s = "AD" ∨ s = "AMD"

/-- `Code.c:convertDest` (`strcmp` chain; anything else falls back to
`DEST_NULL = "000"`). -/
def convertDest (dest : Option String) : String :=
  match dest with
  | none => "000"
  | some s =>
    if s = "M" then "001"
    else if s = "D" then "010"
    else if s = "MD" then "011"
    else if s = "A" then "100"
    else if s = "AM" then "101"
    else if s = "AD" then "110"
    else if s = "AMD" then "111"
    else "000"

/-- Computation mnemonics accepted by `Code.c:convertComp`. -/
def isCompMnemonic (s : String) : Bool :=
  s = "0" ∨ s = "1" ∨ s = "-1" ∨ s = "D" ∨ s = "A" ∨ s = "!D" ∨ s = "!A" ∨
  s = "-D" ∨ s = "-A" ∨ s = "D+1" ∨ s = "A+1" ∨ s = "D-1" ∨ s = "A-1" ∨
  s = "D+A" ∨ s = "D-A" ∨ s = "A-D" ∨ s = "D&A" ∨ s = "D|A" ∨ s = "M" ∨
  s = "!M" ∨ s = "-M" ∨ s = "M+1" ∨ s = "M-1" ∨ s = "D+M" ∨ s = "D-M" ∨
  s = "M-D" ∨ s = "D&M" ∨ s = "D|M"

/-- `Code.c:convertComp` (`strcmp` chain over the fixed table of `Config.h`;
anything else falls back to `COMP_NULL = "0000000"`). -/
def convertComp (comp : Option String) : String :=
  match comp with
  | none => "0000000"
  | some s =>
    if s = "0" then "0101010"
    else if s = "1" then "0111111"
    else if s = "-1" then "0111010"
    else if s = "D" then "0001100"
    else if s = "A" then "0110000"
    else if s = "!D" then "0001101"
    else if s = "!A" then "0110001"
    else if s = "-D" then "0001111"
    else if s = "-A" then "0110011"
    else if s = "D+1" then "0011111"
    else if s = "A+1" then "0110111"
    else if s = "D-1" then "0001110"
    else if s = "A-1" then "0110010"
    else if s = "D+A" then "0000010"
    else if s = "D-A" then "0010011"
    else if s = "A-D" then "0000111"
    else if s = "D&A" then "0000000"
    else if s = "D|A" then "0010101"
    else if s = "M" then "1110000"
    else if s = "!M" then "1110001"
    else if s = "-M" then "1110011"
    else if s = "M+1" then "1110111"
    else if s = "M-1" then "1110010"
    else if s = "D+M" then "1000010"
    else if s = "D-M" then "1010011"
    else if s = "M-D" then "1000111"
    else if s = "D&M" then "1000000"
    else if s = "D|M" then "1010101"
    else "0000000"

/-- Jump mnemonics accepted by `Code.c:convertJump`. -/
def isJumpMnemonic (s : String) : Bool :=
  s = "JGT" ∨ s = "JEQ" ∨ s = "JGE" ∨ s = "JLT" ∨ s = "JNE" ∨ s = "JLE" ∨ s = "JMP"

/-- `Code.c:convertJump` (`strcmp` chain; anything else falls back to
`JUMP_NULL = "000"`). -/
def convertJump (jump : Option String) : String :=
  match jump with
  | none => "000"
  | some s =>
    if s = "JGT" then "001"
    else if s = "JEQ" then "010"
    else if s = "JGE" then "011"
    else if s = "JLT" then "100"
    else if s = "JNE" then "101"
    else if s = "JLE" then "110"
    else if s = "JMP" then "111"
    else "000"

/-- Split a character list at the first occurrence of `c` (C `strchr`):
`none` when absent, otherwise the parts before and after `c`. -/
def splitAtFirst (c : Char) : List Char → Option (List Char × List Char)
  | [] => none
  | d :: rest =>
    if d = c then some ([], rest)
    else (splitAtFirst c rest).map fun p => (d :: p.1, p.2)

/-- `Parser.c:getDest`: the part before `=`, or `NULL` when there is no `=`. -/
def getDest (line : String) : Option String :=
  (splitAtFirst '=' line.data).map fun p => String.mk p.1

/-- `Parser.c:getComp`: between `=` and `;`, after `=`, before `;`, or the
whole line, depending on which separators occur. -/
def getComp (line : String) : String :=
  match splitAtFirst '=' line.data with
  | some (_, afterEq) =>
    match splitAtFirst ';' afterEq with
    | some (comp, _) => String.mk comp
    | none => String.mk afterEq
  | none =>
    match splitAtFirst ';' line.data with
    | some (comp, _) => String.mk comp
    | none => line

/-- `Parser.c:getJump`: the part after `;`, or `NULL` when there is no `;`. -/
def getJump (line : String) : Option String :=
  (splitAtFirst ';' line.data).map fun p => String.mk p.2

/-- Binary line built for a C-command in `Assembler.c` (second pass):
`snprintf(binary, 17, "111%s%s%s", compBits, destBits, jumpBits)`. -/
def emitCCommand (dest : Option String) (comp : Option String) (jump : Option String) : String :=
  "111" ++ convertComp comp ++ convertDest dest ++ convertJump jump

/-- Binary line built for a whole C-command line (`Assembler.c:107-117`):
`getDest`/`getComp`/`getJump`, the three conversions, then
`"111" ++ comp ++ dest ++ jump`. -/
def assembleC (line : String) : String :=
  emitCCommand (getDest line) (some (getComp line)) (getJump line)

/-- Specification-side rendering of an address: the character `0` followed
by the 15-bit big-endian binary representation (bit `14-k` of the value at
position `k`), written with division and remainder rather than the shift
and mask of the source. -/
def bigEndian15 (m : Nat) : String :=
  String.mk ('0' :: ((List.range 15).map fun k => if m / 2 ^ (14 - k) % 2 = 1 then '1' else '0'))

/-- Second-pass treatment of one A-command symbol (`Assembler.c:89-105`,
non-numeric branch): insert a fresh symbol at `ramAddress` (which is then
incremented) and resolve via `getAddress`. -/
def processSymbol (t : SymbolTable) (symbol : String) : SymbolTable × Nat :=
  let t1 :=
    if contains t.entries symbol then t
    else
      let t2 := addEntry t symbol t.ramAddress
      { t2 with ramAddress := t2.ramAddress + 1 }
  (t1, getAddress t1.entries symbol)

/-- Addresses resolved for a sequence of non-numeric A-command symbols in
second-pass order. -/
def runPass2 : SymbolTable → List String → List Nat
  | _, [] => []
  | t, s :: rest => (processSymbol t s).2 :: runPass2 (processSymbol t s).1 rest

/-- RAM addresses handed out to symbols that were absent from the map when
first used, in order of first occurrence. -/
def freshAssignments : SymbolTable → List String → List Nat
  | _, [] => []
  | t, s :: rest =>
    if contains t.entries s then freshAssignments (processSymbol t s).1 rest
    else t.ramAddress :: freshAssignments (processSymbol t s).1 rest

end Assembler

namespace VM

open Hack

/-!
Embedding of `src/VirtualMachine`.  The emitter globals of `CodeWriter.c`
(`eqCounter`, `gtCounter`, `ltCounter`, `returnCounter`, `curr`,
`currFunction`) are carried in `CWState`; each `write*` routine returns the
lines it `fprintf`s to the output file.
-/

/-- Command type constants of `Parser.h`. -/
inductive CmdType
  | arith | push | pop | label | goto | ifgoto | func | ret | call | unknown
deriving DecidableEq

/-- Mutable globals of `CodeWriter.c` (all zero / empty at program start). -/
structure CWState where
  eqCounter : Nat
  gtCounter : Nat
  ltCounter : Nat
  returnCounter : Nat
  curr : String
  currFunction : String
deriving DecidableEq

/-- State at translator start. -/
def initCWState : CWState :=
  { eqCounter := 0, gtCounter := 0, ltCounter := 0, returnCounter := 0,
    curr := "", currFunction := "" }

/-- `CodeWriter.c:setFile`. -/
def setFile (st : CWState) (fileName : String) : CWState :=
  { st with curr := fileName }

/-- `CodeWriter.c:setFunction`. -/
def setFunction (st : CWState) (functionName : String) : CWState :=
  { st with currFunction := functionName }

/-- `VM/Parser.c:getCommandType`: dispatch on the first whitespace token. -/
def getCommandType (line : String) : CmdType :=
  match wsTokens line with
  | [] => .unknown
  | command :: _ =>
    if command = "add" then .arith
    else if command = "sub" then .arith
    else if command = "neg" then .arith
    else if command = "eq" then .arith
    else if command = "gt" then .arith
    else if command = "lt" then .arith
    else if command = "and" then .arith
    else if command = "or" then .arith
    else if command = "not" then .arith
    else if command = "push" then .push
    else if command = "pop" then .pop
    else if command = "label" then .label
    else if command = "goto" then .goto
    else if command = "if-goto" then .ifgoto
    else if command = "function" then .func
    else if command = "return" then .ret
    else if command = "call" then .call
    else .unknown

/-- `VM/Parser.c:removeWhitespace`: strip `//` comments, trim surrounding
whitespace, `NULL` when nothing is left. -/
def removeWhitespace (line : String) : Option String :=
  let l := (stripComment line.data).dropWhile isSpaceChar
  let l := (l.reverse.dropWhile isSpaceChar).reverse
  if l = [] then none else some (String.mk l)

/-- `VM/Parser.c:getArg1`: the command itself for arithmetic commands,
otherwise the second token. -/
def getArg1 (line : String) (commandType : CmdType) : Option String :=
  match wsTokens line with
  | [] => none
  | command :: rest =>
    if commandType = .arith then some command
    else rest.head?

/-- `VM/Parser.c:getArg2`: the third whitespace token. -/
def getArg2 (line : String) : Option String :=
  match wsTokens line with
  | _ :: _ :: arg2 :: _ => some arg2
  | _ => none

/-- `CodeWriter.c:writeLabel`. -/
def writeLabel (st : CWState) (label : String) : List String :=
  if st.currFunction.length > 0 then ["(" ++ st.currFunction ++ "$" ++ label ++ ")"]
  else ["(" ++ label ++ ")"]

/-- `CodeWriter.c:writeGoto`. -/
def writeGoto (st : CWState) (label : String) : List String :=
  (if st.currFunction.length > 0 then ["@" ++ st.currFunction ++ "$" ++ label]
   else ["@" ++ label]) ++ ["0;JMP"]

/-- `CodeWriter.c:writeIf`. -/
def writeIf (st : CWState) (label : String) : List String :=
  ["@SP", "AM=M-1", "D=M"] ++
  (if st.currFunction.length > 0 then ["@" ++ st.currFunction ++ "$" ++ label]
   else ["@" ++ label]) ++ ["D;JNE"]

/-- `CodeWriter.c:writeCall`: full calling-convention template with a fresh
`RETURN<n>` label. -/
def writeCall (st : CWState) (functionName : String) (numArgs : Int) : CWState × List String :=
  let returnLabel := "RETURN" ++ toString st.returnCounter
  ({ st with returnCounter := st.returnCounter + 1 },
   ["@" ++ returnLabel, "D=A", "@SP", "A=M", "M=D", "@SP", "M=M+1",
    "@LCL", "D=M", "@SP", "A=M", "M=D", "@SP", "M=M+1",
    "@ARG", "D=M", "@SP", "A=M", "M=D", "@SP", "M=M+1",
    "@THIS", "D=M", "@SP", "A=M", "M=D", "@SP", "M=M+1",
    "@THAT", "D=M", "@SP", "A=M", "M=D", "@SP", "M=M+1",
    "@SP", "D=M", "@" ++ toString (numArgs + 5), "D=D-A", "@ARG", "M=D",
    "@SP", "D=M", "@LCL", "M=D",
    "@" ++ functionName, "0;JMP",
    "(" ++ returnLabel ++ ")"])

/-- `CodeWriter.c:writeInit`: `SP = 256` then `call Sys.init 0`. -/
def writeInit (st : CWState) : CWState × List String :=
  let p := writeCall st "Sys.init" 0
  (p.1, ["@256", "D=A", "@SP", "M=D"] ++ p.2)

/-- `CodeWriter.c:writeReturn`. -/
def writeReturn : List String :=
  ["@LCL", "D=M", "@R13", "M=D",
   "@R13", "D=M", "@5", "A=D-A", "D=M", "@R14", "M=D",
   "@SP", "AM=M-1", "D=M", "@ARG", "A=M", "M=D",
   "@ARG", "D=M+1", "@SP", "M=D",
   "@R13", "D=M", "@1", "A=D-A", "D=M", "@THAT", "M=D",
   "@R13", "D=M", "@2", "A=D-A", "D=M", "@THIS", "M=D",
   "@R13", "D=M", "@3", "A=D-A", "D=M", "@ARG", "M=D",
   "@R13", "D=M", "@4", "A=D-A", "D=M", "@LCL", "M=D",
   "@R14", "A=M", "0;JMP"]

/-- `CodeWriter.c:writeFunction`: `(f)` label then `numLocals` zero pushes. -/
def writeFunction (st : CWState) (functionName : String) (numLocals : Int) : CWState × List String :=
  (setFunction st functionName,
   ("(" ++ functionName ++ ")") ::
   (List.replicate numLocals.toNat ["@0", "D=A", "@SP", "A=M", "M=D", "@SP", "M=M+1"]).flatten)

/-- `CodeWriter.c:writeArithmetic` (the unknown-command branch only prints
to `stderr` and emits nothing). -/
def writeArithmetic (st : CWState) (command : String) : CWState × List String :=
  if command = "add" then (st, ["@SP", "AM=M-1", "D=M", "A=A-1", "M=M+D"])
  else if command = "sub" then (st, ["@SP", "AM=M-1", "D=M", "A=A-1", "M=M-D"])
  else if command = "neg" then (st, ["@SP", "A=M-1", "M=-M"])
  else if command = "eq" then
    ({ st with eqCounter := st.eqCounter + 1 },
     ["@SP", "AM=M-1", "D=M", "A=A-1", "D=M-D",
      "@EQ" ++ toString st.eqCounter, "D;JEQ",
      "@SP", "A=M-1", "M=0",
      "@EQDONE" ++ toString st.eqCounter, "0;JMP",
      "(EQ" ++ toString st.eqCounter ++ ")",
      "@SP", "A=M-1", "M=-1",
      "(EQDONE" ++ toString st.eqCounter ++ ")"])
  else if command = "gt" then
    ({ st with gtCounter := st.gtCounter + 1 },
     ["@SP", "AM=M-1", "D=M", "A=A-1", "D=M-D",
      "@GT" ++ toString st.gtCounter, "D;JGT",
      "@SP", "A=M-1", "M=0",
      "@GTDONE" ++ toString st.gtCounter, "0;JMP",
      "(GT" ++ toString st.gtCounter ++ ")",
      "@SP", "A=M-1", "M=-1",
      "(GTDONE" ++ toString st.gtCounter ++ ")"])
  else if command = "lt" then
    ({ st with ltCounter := st.ltCounter + 1 },
     ["@SP", "AM=M-1", "D=M", "A=A-1", "D=M-D",
      "@LT" ++ toString st.ltCounter, "D;JLT",
      "@SP", "A=M-1", "M=0",
      "@LTDONE" ++ toString st.ltCounter, "0;JMP",
      "(LT" ++ toString st.ltCounter ++ ")",
      "@SP", "A=M-1", "M=-1",
      "(LTDONE" ++ toString st.ltCounter ++ ")"])
  else if command = "and" then (st, ["@SP", "AM=M-1", "D=M", "A=A-1", "M=M&D"])
  else if command = "or" then (st, ["@SP", "AM=M-1", "D=M", "A=A-1", "M=M|D"])
  else if command = "not" then (st, ["@SP", "A=M-1", "M=!M"])
  else (st, [])

/-- `CodeWriter.c:writePushPop`: one template per segment; the static
segment references `@<curr>.<index>`; invalid segments only print to
`stderr` and emit nothing. -/
def writePushPop (st : CWState) (commandType : CmdType) (segment : String) (index : String) : List String :=
  if commandType = .push then
    if segment = "constant" then
      ["@" ++ index, "D=A", "@SP", "A=M", "M=D", "@SP", "M=M+1"]
    else if segment = "local" then
      ["@" ++ index, "D=A", "@LCL", "A=M+D", "D=M", "@SP", "A=M", "M=D", "@SP", "M=M+1"]
    else if segment = "argument" then
      ["@" ++ index, "D=A", "@ARG", "A=M+D", "D=M", "@SP", "A=M", "M=D", "@SP", "M=M+1"]
    else if segment = "this" then
      ["@" ++ index, "D=A", "@THIS", "A=M+D", "D=M", "@SP", "A=M", "M=D", "@SP", "M=M+1"]
    else if segment = "that" then
      ["@" ++ index, "D=A", "@THAT", "A=M+D", "D=M", "@SP", "A=M", "M=D", "@SP", "M=M+1"]
    else if segment = "static" then
      ["@" ++ st.curr ++ "." ++ index, "D=M", "@SP", "A=M", "M=D", "@SP", "M=M+1"]
    else if segment = "temp" then
      ["@" ++ index, "D=A", "@5", "A=A+D", "D=M", "@SP", "A=M", "M=D", "@SP", "M=M+1"]
    else if segment = "pointer" then
      (if index = "0" then ["@THIS"] else ["@THAT"]) ++
      ["D=M", "@SP", "A=M", "M=D", "@SP", "M=M+1"]
    else []
  else if commandType = .pop then
    if segment = "local" then
      ["@" ++ index, "D=A", "@LCL", "D=M+D", "@R13", "M=D", "@SP", "AM=M-1", "D=M", "@R13", "A=M", "M=D"]
    else if segment = "argument" then
      ["@" ++ index, "D=A", "@ARG", "D=M+D", "@R13", "M=D", "@SP", "AM=M-1", "D=M", "@R13", "A=M", "M=D"]
    else if segment = "this" then
      ["@" ++ index, "D=A", "@THIS", "D=M+D", "@R13", "M=D", "@SP", "AM=M-1", "D=M", "@R13", "A=M", "M=D"]
    else if segment = "that" then
      ["@" ++ index, "D=A", "@THAT", "D=M+D", "@R13", "M=D", "@SP", "AM=M-1", "D=M", "@R13", "A=M", "M=D"]
    else if segment = "static" then
      ["@SP", "AM=M-1", "D=M", "@" ++ st.curr ++ "." ++ index, "M=D"]
    else if segment = "temp" then
      ["@" ++ index, "D=A", "@5", "D=A+D", "@R13", "M=D", "@SP", "AM=M-1", "D=M", "@R13", "A=M", "M=D"]
    else if segment = "pointer" then
      ["@SP", "AM=M-1", "D=M"] ++ (if index = "0" then ["@THIS"] else ["@THAT"]) ++ ["M=D"]
    else []
  else []

/-- Per-line translation loop body shared by both modes of
`VMTranslator.c:main` (lines 64-133 and 171-235). -/
def translateLine (st : CWState) (line : String) : Except String (CWState × List String) :=
  match removeWhitespace line with
  | none => .ok (st, [])
  | some trimmed =>
    let commandType := getCommandType trimmed
    if commandType = .unknown then .error "Unknown command type"
    else if commandType = .ret then .ok (st, writeReturn)
    else
      match getArg1 trimmed commandType with
      | none => .error "Failed to get first argument"
      | some arg1 =>
        if commandType = .push ∨ commandType = .pop ∨ commandType = .func ∨ commandType = .call then
          match getArg2 trimmed with
          | none => .error "Failed to get second argument"
          | some arg2 =>
            if commandType = .push ∨ commandType = .pop then
              .ok (st, writePushPop st commandType arg1 arg2)
            else if commandType = .func then
              .ok (writeFunction st arg1 (atoi arg2))
            else
              .ok (writeCall st arg1 (atoi arg2))
        else
          if commandType = .arith then .ok (writeArithmetic st arg1)
          else if commandType = .label then .ok (st, writeLabel st arg1)
          else if commandType = .goto then .ok (st, writeGoto st arg1)
          else .ok (st, writeIf st arg1)

/-- Translate the lines of one `.vm` file in order. -/
def translateLines (st : CWState) : List String → Except String (CWState × List String)
  | [] => .ok (st, [])
  | line :: rest => do
    let (st1, out1) ← translateLine st line
    let (st2, out2) ← translateLines st1 rest
    .ok (st2, out1 ++ out2)

/-- `fileName` ends with `".vm"` (the `strrchr(name, '.')` / `strcmp(".vm")`
check of `VMTranslator.c`). -/
def endsWithVm (fileName : String) : Bool :=
  match fileName.data.reverse with
  | 'm' :: 'v' :: '.' :: _ => true
  | _ => false

/-- Directory-mode file loop (`VMTranslator.c:41-136`): skip entries without
the `.vm` extension, `setFile(entry->d_name)` (the full name, extension
included), then translate the file's lines. -/
def translateFiles (st : CWState) : List (String × List String) → Except String (CWState × List String)
  | [] => .ok (st, [])
  | (dName, lines) :: rest =>
    if endsWithVm dName then do
      let st := setFile st dName
      let (st1, out1) ← translateLines st lines
      let (st2, out2) ← translateFiles st1 rest
      .ok (st2, out1 ++ out2)
    else translateFiles st rest

/-- Directory mode of `VMTranslator.c:main`: `writeInit` first, then every
file. -/
def translateDir (files : List (String × List String)) : Except String (List String) :=
  match translateFiles (writeInit initCWState).1 files with
  | .ok p => .ok ((writeInit initCWState).2 ++ p.2)
  | .error e => .error e

/-- Stem used by single-file mode: `fileName[strlen(fileName) - 3] = '\0'`
truncates the `.vm` extension. -/
def singleStem (path : String) : String :=
  String.mk (path.data.take (path.data.length - 3))

/-- Single-file mode of `VMTranslator.c:main` (lines 141-239): check the
`.vm` extension, truncate it, `setFile` with the truncated name, and
translate; no `writeInit`. -/
def translateSingle (path : String) (lines : List String) : Except String (List String) :=
  if endsWithVm path then
    match translateLines (setFile initCWState (singleStem path)) lines with
    | .ok p => .ok p.2
    | .error e => .error e
  else .error "Invalid file type"

end VM

namespace Compiler

/-!
Embedding of the Jack compiler (`src/Compiler` + `src/CCompiler`).

The tokenizer is abstracted to a list of typed tokens (`JackTokenizer.c`
produces exactly these classes); `advance` drops the head.  The
`CompilationEngine` struct of `Config.h` is carried explicitly, with the VM
writer's output file modelled as the accumulated list of emitted lines and
the VM writer's `labelCounter` as `vmLabelCounter` (the engine's own
`labelCounter` field, which `parseExpressionList` uses to store the
argument count, is kept separately as in the source).  The recursive
descent uses an explicit fuel parameter; every theorem below supplies
enough fuel for its input.
-/

/-- Variable kinds of `Config.h` (`STATIC/FIELD/ARG/VAR`). -/
inductive JKind
  | static | field | arg | var
deriving DecidableEq

/-- Symbol table entry of `Config.h`. -/
structure SymbolEntry where
  name : String
  ty : String
  kind : JKind
  index : Nat
deriving DecidableEq

/-- Symbol table of `Config.h`: entries in definition order plus the four
per-kind counters. -/
structure SymbolTable where
  entries : List SymbolEntry
  staticCount : Nat
  fieldCount : Nat
  argCount : Nat
  varCount : Nat
deriving DecidableEq

/-- `SymbolTable.c:initSymbolTable`. -/
def initSymbolTable : SymbolTable :=
  { entries := [], staticCount := 0, fieldCount := 0, argCount := 0, varCount := 0 }

/-- `SymbolTable.c:define`: unconditionally append an entry whose index is
the current per-kind counter, then bump that counter. -/
def define (t : SymbolTable) (name ty : String) (kind : JKind) : SymbolTable :=
  match kind with
  | .static =>
    { t with entries := t.entries ++ [⟨name, ty, kind, t.staticCount⟩],
             staticCount := t.staticCount + 1 }
  | .field =>
    { t with entries := t.entries ++ [⟨name, ty, kind, t.fieldCount⟩],
             fieldCount := t.fieldCount + 1 }
  | .arg =>
    { t with entries := t.entries ++ [⟨name, ty, kind, t.argCount⟩],
             argCount := t.argCount + 1 }
  | .var =>
    { t with entries := t.entries ++ [⟨name, ty, kind, t.varCount⟩],
             varCount := t.varCount + 1 }

/-- `SymbolTable.c:varCount`. -/
def varCount (t : SymbolTable) (kind : JKind) : Nat :=
  match kind with
  | .static => t.staticCount
  | .field => t.fieldCount
  | .arg => t.argCount
  | .var => t.varCount

/-- `SymbolTable.c:kindOf`: first entry with the given name (`-1 ↦ none`). -/
def kindOf (t : SymbolTable) (name : String) : Option JKind :=
  (t.entries.find? fun e => e.name == name).map (·.kind)

/-- `SymbolTable.c:typeOf`. -/
def typeOf (t : SymbolTable) (name : String) : Option String :=
  (t.entries.find? fun e => e.name == name).map (·.ty)

/-- `SymbolTable.c:indexOf`. -/
def indexOf (t : SymbolTable) (name : String) : Option Nat :=
  (t.entries.find? fun e => e.name == name).map (·.index)

/-- `SymbolTable.c:kindToSegment`. -/
def kindToSegment (kind : JKind) : String :=
  match kind with
  | .static => "static"
  | .field => "this"
  | .arg => "argument"
  | .var => "local"

/-- Typed tokens produced by `JackTokenizer.c`. -/
inductive Token
  | keyword (s : String)
  | symbol (c : Char)
  | intConst (n : Nat)
  | strConst (s : String)
  | identifier (s : String)
deriving DecidableEq

/-- Text of a token as returned by `getToken`. -/
def tokenText : Token → String
  | .keyword s => s
  | .symbol c => String.mk [c]
  | .intConst n => toString n
  | .strConst s => s
  | .identifier s => s

/-- `CompilationEngine` of `Config.h`, with the output file as a line list. -/
structure CompilationEngine where
  tokens : List Token
  classSymbolTable : SymbolTable
  subroutineSymbolTable : SymbolTable
  className : String
  currentFunctionName : String
  labelCounter : Int
  vmLabelCounter : Nat
  output : List String
deriving DecidableEq

/-- `hasMoreTokens`. -/
def hasMoreTokens (ce : CompilationEngine) : Bool :=
  !ce.tokens.isEmpty

/-- `getToken` (text of the current token; `""` past the end). -/
def getToken (ce : CompilationEngine) : String :=
  match ce.tokens with
  | [] => ""
  | t :: _ => tokenText t

/-- `advance`. -/
def advance (ce : CompilationEngine) : CompilationEngine :=
  { ce with tokens := ce.tokens.tail }

/-- `Utils.c:checkSymbol`. -/
def checkSymbol (ce : CompilationEngine) (c : Char) : Bool :=
  match ce.tokens with
  | .symbol d :: _ => d = c
  | _ => false

/-- `Utils.c:checkKeyword`. -/
def checkKeyword (ce : CompilationEngine) (k : String) : Bool :=
  match ce.tokens with
  | .keyword s :: _ => s = k
  | _ => false

/-- `Utils.c:checkIdentifier`. -/
def checkIdentifier (ce : CompilationEngine) : Bool :=
  match ce.tokens with
  | .identifier _ :: _ => true
  | _ => false

/-- `Utils.c:requireSymbol` (`require` with `exit(1)` modelled as an error). -/
def requireSymbol (ce : CompilationEngine) (c : Char) : Except String CompilationEngine :=
  match ce.tokens with
  | .symbol d :: rest =>
    if d = c then .ok { ce with tokens := rest } else .error "Expected symbol"
  | _ => .error "Expected symbol"

/-- `Utils.c:requireKeyword`. -/
def requireKeyword (ce : CompilationEngine) (k : String) : Except String CompilationEngine :=
  match ce.tokens with
  | .keyword s :: rest =>
    if s = k then .ok { ce with tokens := rest } else .error "Expected keyword"
  | _ => .error "Expected keyword"

/-- `Utils.c:requireIdentifier`. -/
def requireIdentifier (ce : CompilationEngine) : Except String CompilationEngine :=
  match ce.tokens with
  | .identifier _ :: rest => .ok { ce with tokens := rest }
  | _ => .error "Expected identifier"

/-- Append an emitted VM line (one `fprintf` to the output file). -/
def emit (ce : CompilationEngine) (line : String) : CompilationEngine :=
  { ce with output := ce.output ++ [line] }

/-- `Utils.c:writeVMPush` (`"push %s %d\n"`). -/
def writeVMPush (ce : CompilationEngine) (segment : String) (index : Int) : CompilationEngine :=
  emit ce ("push " ++ segment ++ " " ++ toString index)

/-- `Utils.c:writeVMPop`. -/
def writeVMPop (ce : CompilationEngine) (segment : String) (index : Int) : CompilationEngine :=
  emit ce ("pop " ++ segment ++ " " ++ toString index)

/-- `Utils.c:writeVMArithmetic`. -/
def writeVMArithmetic (ce : CompilationEngine) (command : String) : CompilationEngine :=
  emit ce command

/-- `Utils.c:writeVMLabel`. -/
def writeVMLabel (ce : CompilationEngine) (label : String) : CompilationEngine :=
  emit ce ("label " ++ label)

/-- `Utils.c:writeVMGoto`. -/
def writeVMGoto (ce : CompilationEngine) (label : String) : CompilationEngine :=
  emit ce ("goto " ++ label)

/-- `Utils.c:writeVMIf`. -/
def writeVMIf (ce : CompilationEngine) (label : String) : CompilationEngine :=
  emit ce ("if-goto " ++ label)

/-- `Utils.c:writeVMCall`. -/
def writeVMCall (ce : CompilationEngine) (name : String) (nArgs : Int) : CompilationEngine :=
  emit ce ("call " ++ name ++ " " ++ toString nArgs)

/-- `Utils.c:writeVMFunction`. -/
def writeVMFunction (ce : CompilationEngine) (name : String) (nLocals : Int) : CompilationEngine :=
  emit ce ("function " ++ name ++ " " ++ toString nLocals)

/-- `Utils.c:writeVMReturn`. -/
def writeVMReturn (ce : CompilationEngine) : CompilationEngine :=
  emit ce "return"

/-- `VMWriter.c:generateLabel` (`"%s_%d"` with the writer's label counter). -/
def generateLabel (ce : CompilationEngine) (pre : String) : CompilationEngine × String :=
  ({ ce with vmLabelCounter := ce.vmLabelCounter + 1 },
   pre ++ "_" ++ toString ce.vmLabelCounter)

/-- `Utils.c:isOp`: current token is a SYMBOL among `+-*/&|<>=`. -/
def isOp (ce : CompilationEngine) : Bool :=
  match ce.tokens with
  | .symbol c :: _ => ['+', '-', '*', '/', '&', '|', '<', '>', '='].contains c
  | _ => false

/-- `Utils.c:isTerm`. -/
def isTerm (ce : CompilationEngine) : Bool :=
  match ce.tokens with
  | .intConst _ :: _ => true
  | .strConst _ :: _ => true
  | .identifier _ :: _ => true
  | .symbol c :: _ => c = '(' ∨ c = '-' ∨ c = '~'
  | .keyword k :: _ => k = "true" ∨ k = "false" ∨ k = "null" ∨ k = "this"
  | _ => false

/-- `Utils.c:isType`. -/
def isType (ce : CompilationEngine) : Bool :=
  match ce.tokens with
  | .keyword k :: _ => k = "int" ∨ k = "char" ∨ k = "boolean" ∨ k = "void"
  | .identifier _ :: _ => true
  | _ => false

/-- `Utils.c:isVarDec`. -/
def isVarDec (ce : CompilationEngine) : Bool :=
  checkKeyword ce "var"

/-- `Utils.c:isStatement`. -/
def isStatement (ce : CompilationEngine) : Bool :=
  checkKeyword ce "let" ∨ checkKeyword ce "if" ∨ checkKeyword ce "while" ∨
  checkKeyword ce "do" ∨ checkKeyword ce "return"

/-- Kind lookup used by `Expressions.c` and `Statements.c`: subroutine
table first, then class table. -/
def lookupKind (ce : CompilationEngine) (name : String) : Option JKind :=
  match kindOf ce.subroutineSymbolTable name with
  | some k => some k
  | none => kindOf ce.classSymbolTable name

/-- Index lookup used alongside `lookupKind` (`-1` when absent from both,
as in the C int convention). -/
def lookupIndex (ce : CompilationEngine) (name : String) : Int :=
  match indexOf ce.subroutineSymbolTable name with
  | some i => (i : Int)
  | none =>
    match indexOf ce.classSymbolTable name with
    | some i => (i : Int)
    | none => -1

mutual

/-- `Expressions.c:parseTerm`. -/
def parseTerm : Nat → CompilationEngine → Except String CompilationEngine
  | 0, _ => .error "Fuel exhausted"
  | fuel + 1, ce =>
    match ce.tokens with
    | .intConst n :: _ => .ok (advance (writeVMPush ce "constant" n))
    | .strConst _ :: _ => .ok (advance (writeVMPush ce "constant" 0))
    | .keyword k :: _ =>
      if k = "true" then .ok (advance (writeVMArithmetic (writeVMPush ce "constant" 0) "not"))
      else if k = "false" ∨ k = "null" then .ok (advance (writeVMPush ce "constant" 0))
      else if k = "this" then .ok (advance (writeVMPush ce "pointer" 0))
      else .ok (advance ce)
    | _ =>
      if checkSymbol ce '(' then do
        let ce ← requireSymbol ce '('
        let ce ← parseExpression fuel ce
        requireSymbol ce ')'
      else if checkSymbol ce '-' ∨ checkSymbol ce '~' then do
        let op := getToken ce
        let ce := advance ce
        let ce ← parseTerm fuel ce
        if op = "-" then .ok (writeVMArithmetic ce "neg")
        else if op = "~" then .ok (writeVMArithmetic ce "not")
        else .ok ce
      else if checkIdentifier ce then do
        let varName := getToken ce
        let ce := advance ce
        if checkSymbol ce '[' then do
          let ce ← requireSymbol ce '['
          let ce ← parseExpression fuel ce
          let ce ← requireSymbol ce ']'
          let ce :=
            match lookupKind ce varName with
            | some kind => writeVMPush ce (kindToSegment kind) (lookupIndex ce varName)
            | none => ce
          .ok (writeVMPush (writeVMPop (writeVMArithmetic ce "add") "pointer" 1) "that" 0)
        else if checkSymbol ce '(' ∨ checkSymbol ce '.' then
          parseSubroutineCall fuel ce
        else
          match lookupKind ce varName with
          | some kind => .ok (writeVMPush ce (kindToSegment kind) (lookupIndex ce varName))
          | none => .ok ce
      else .ok ce

/-- Operator loop of `Expressions.c:parseExpression`. -/
def parseExpressionOps : Nat → CompilationEngine → Except String CompilationEngine
  | 0, _ => .error "Fuel exhausted"
  | fuel + 1, ce =>
    if isOp ce then do
      let op := getToken ce
      let ce := advance ce
      let ce ← parseTerm fuel ce
      let ce :=
        if op = "+" then writeVMArithmetic ce "add"
        else if op = "-" then writeVMArithmetic ce "sub"
        else if op = "*" then writeVMCall ce "Math.multiply" 2
        else if op = "/" then writeVMCall ce "Math.divide" 2
        else if op = "&" then writeVMArithmetic ce "and"
        else if op = "|" then writeVMArithmetic ce "or"
        else if op = "<" then writeVMArithmetic ce "lt"
        else if op = ">" then writeVMArithmetic ce "gt"
        else if op = "=" then writeVMArithmetic ce "eq"
        else ce
      parseExpressionOps fuel ce
    else .ok ce

/-- `Expressions.c:parseExpression`. -/
def parseExpression : Nat → CompilationEngine → Except String CompilationEngine
  | 0, _ => .error "Fuel exhausted"
  | fuel + 1, ce => do
    let ce ← parseTerm fuel ce
    parseExpressionOps fuel ce

/-- Comma loop of `Expressions.c:parseExpressionList`. -/
def parseExpressionListLoop : Nat → CompilationEngine → Int → Except String (CompilationEngine × Int)
  | 0, _, _ => .error "Fuel exhausted"
  | fuel + 1, ce, argCount =>
    if checkSymbol ce ',' then do
      let ce ← requireSymbol ce ','
      let ce ← parseExpression fuel ce
      parseExpressionListLoop fuel ce (argCount + 1)
    else .ok (ce, argCount)

/-- `Expressions.c:parseExpressionList`: counts the comma-separated
expressions and stores the count in the engine's `labelCounter` field. -/
def parseExpressionList : Nat → CompilationEngine → Except String CompilationEngine
  | 0, _ => .error "Fuel exhausted"
  | fuel + 1, ce =>
    if isTerm ce then do
      let ce ← parseExpression fuel ce
      let p ← parseExpressionListLoop fuel ce 1
      .ok { p.1 with labelCounter := p.2 }
    else .ok { ce with labelCounter := 0 }

/-- `Expressions.c:parseSubroutineCall`. -/
def parseSubroutineCall : Nat → CompilationEngine → Except String CompilationEngine
  | 0, _ => .error "Fuel exhausted"
  | fuel + 1, ce => do
    let ce ← if checkIdentifier ce then requireIdentifier ce else .ok ce
    let ce ←
      if checkSymbol ce '.' then do
        let ce ← requireSymbol ce '.'
        requireIdentifier ce
      else .ok ce
    let ce ← requireSymbol ce '('
    let ce ← parseExpressionList fuel ce
    requireSymbol ce ')'

/-- `Statements.c:parseLet`. -/
def parseLet : Nat → CompilationEngine → Except String CompilationEngine
  | 0, _ => .error "Fuel exhausted"
  | fuel + 1, ce => do
    let ce ← requireKeyword ce "let"
    let varName := getToken ce
    let ce := advance ce
    let ce ←
      if checkSymbol ce '[' then do
        let ce ← requireSymbol ce '['
        let ce ← parseExpression fuel ce
        let ce ← requireSymbol ce ']'
        .ok (writeVMArithmetic ce "add")
      else .ok ce
    let ce ← requireSymbol ce '='
    let ce ← parseExpression fuel ce
    let ce ← requireSymbol ce ';'
    match kindOf ce.subroutineSymbolTable varName with
    | some kind =>
      match indexOf ce.subroutineSymbolTable varName with
      | some index => .ok (writeVMPop ce (kindToSegment kind) index)
      | none => .ok ce
    | none =>
      match kindOf ce.classSymbolTable varName with
      | some kind =>
        match indexOf ce.classSymbolTable varName with
        | some index => .ok (writeVMPop ce (kindToSegment kind) index)
        | none => .ok ce
      | none => .ok ce

/-- `Statements.c:parseIf` (three labels are generated; the second is
never used, exactly as in the source). -/
def parseIf : Nat → CompilationEngine → Except String CompilationEngine
  | 0, _ => .error "Fuel exhausted"
  | fuel + 1, ce => do
    let ce ← requireKeyword ce "if"
    let p1 := generateLabel ce "IF_TRUE"
    let p2 := generateLabel p1.1 "IF_FALSE"
    let p3 := generateLabel p2.1 "IF_END"
    let label1 := p1.2
    let label3 := p3.2
    let ce := p3.1
    let ce ← requireSymbol ce '('
    let ce ← parseExpression fuel ce
    let ce ← requireSymbol ce ')'
    let ce := writeVMIf (writeVMArithmetic ce "not") label1
    let ce ← requireSymbol ce '\x7b'
    let ce ← parseStatements fuel ce
    let ce ← requireSymbol ce '\x7d'
    let ce := writeVMLabel (writeVMGoto ce label3) label1
    let ce ←
      if checkKeyword ce "else" then do
        let ce := advance ce
        let ce ← requireSymbol ce '\x7b'
        let ce ← parseStatements fuel ce
        requireSymbol ce '\x7d'
      else .ok ce
    .ok (writeVMLabel ce label3)

/-- `Statements.c:parseWhile`. -/
def parseWhile : Nat → CompilationEngine → Except String CompilationEngine
  | 0, _ => .error "Fuel exhausted"
  | fuel + 1, ce => do
    let ce ← requireKeyword ce "while"
    let p1 := generateLabel ce "WHILE_EXP"
    let p2 := generateLabel p1.1 "WHILE_END"
    let label1 := p1.2
    let label2 := p2.2
    let ce := writeVMLabel p2.1 label1
    let ce ← requireSymbol ce '('
    let ce ← parseExpression fuel ce
    let ce ← requireSymbol ce ')'
    let ce := writeVMIf (writeVMArithmetic ce "not") label2
    let ce ← requireSymbol ce '\x7b'
    let ce ← parseStatements fuel ce
    let ce ← requireSymbol ce '\x7d'
    .ok (writeVMLabel (writeVMGoto ce label1) label2)

/-- `Statements.c:parseDo`: call, then `pop temp 0`. -/
def parseDo : Nat → CompilationEngine → Except String CompilationEngine
  | 0, _ => .error "Fuel exhausted"
  | fuel + 1, ce => do
    let ce ← requireKeyword ce "do"
    let ce ← parseSubroutineCall fuel ce
    let ce ← requireSymbol ce ';'
    .ok (writeVMPop ce "temp" 0)

/-- `Statements.c:parseReturn`. -/
def parseReturn : Nat → CompilationEngine → Except String CompilationEngine
  | 0, _ => .error "Fuel exhausted"
  | fuel + 1, ce => do
    let ce ←
      match requireKeyword ce "return" with
      | .error e => .error e
      | .ok ce =>
        if !(checkSymbol ce ';') then parseExpression fuel ce
        else .ok (writeVMPush ce "constant" 0)
    let ce ← requireSymbol ce ';'
    .ok (writeVMReturn ce)

/-- `Statements.c:parseStatements`: loop while the current token starts a
statement, dispatching on the keyword. -/
def parseStatements : Nat → CompilationEngine → Except String CompilationEngine
  | 0, _ => .error "Fuel exhausted"
  | fuel + 1, ce =>
    if isStatement ce then do
      let ce ←
        if checkKeyword ce "let" then parseLet fuel ce
        else if checkKeyword ce "if" then parseIf fuel ce
        else if checkKeyword ce "while" then parseWhile fuel ce
        else if checkKeyword ce "do" then parseDo fuel ce
        else parseReturn fuel ce
      parseStatements fuel ce
    else .ok ce

end

/-- Comma loop of `Declarations.c:parseVarDec`. -/
def parseVarDecLoop : Nat → CompilationEngine → String → Except String CompilationEngine
  | 0, _, _ => .error "Fuel exhausted"
  | fuel + 1, ce, ty =>
    if checkSymbol ce ',' then do
      let ce ← requireSymbol ce ','
      let name := getToken ce
      let ce := advance ce
      let ce := { ce with subroutineSymbolTable := define ce.subroutineSymbolTable name ty .var }
      parseVarDecLoop fuel ce ty
    else .ok ce

/-- `Declarations.c:parseVarDec`. -/
def parseVarDec (fuel : Nat) (ce : CompilationEngine) : Except String CompilationEngine := do
  let ce ← requireKeyword ce "var"
  let ty := getToken ce
  let ce := advance ce
  let name := getToken ce
  let ce := advance ce
  let ce := { ce with subroutineSymbolTable := define ce.subroutineSymbolTable name ty .var }
  let ce ← parseVarDecLoop fuel ce ty
  requireSymbol ce ';'

/-- Comma loop of `Declarations.c:parseParameterList`. -/
def parseParameterListLoop : Nat → CompilationEngine → Except String CompilationEngine
  | 0, _ => .error "Fuel exhausted"
  | fuel + 1, ce =>
    if checkSymbol ce ',' then do
      let ce ← requireSymbol ce ','
      let ty := getToken ce
      let ce := advance ce
      let name := getToken ce
      let ce := advance ce
      let ce := { ce with subroutineSymbolTable := define ce.subroutineSymbolTable name ty .arg }
      parseParameterListLoop fuel ce
    else .ok ce

/-- `Declarations.c:parseParameterList`: every parameter is defined with
kind ARG in the subroutine table. -/
def parseParameterList (fuel : Nat) (ce : CompilationEngine) : Except String CompilationEngine :=
  if isType ce then do
    let ty := getToken ce
    let ce := advance ce
    let name := getToken ce
    let ce := advance ce
    let ce := { ce with subroutineSymbolTable := define ce.subroutineSymbolTable name ty .arg }
    parseParameterListLoop fuel ce
  else .ok ce

/-- `while (isVarDec) parseVarDec` loop of `Declarations.c:parseSubroutineBody`. -/
def parseVarDecs : Nat → CompilationEngine → Except String CompilationEngine
  | 0, _ => .error "Fuel exhausted"
  | fuel + 1, ce =>
    if isVarDec ce then do
      let ce ← parseVarDec fuel ce
      parseVarDecs fuel ce
    else .ok ce

/-- `Declarations.c:parseSubroutineBody`: var declarations, then
`function <Class>.<name> <nVars>`, then the statements.  Nothing else is
emitted between the `function` line and the statements. -/
def parseSubroutineBody (fuel : Nat) (ce : CompilationEngine) : Except String CompilationEngine := do
  let ce ← requireSymbol ce '\x7b'
  let ce ← parseVarDecs fuel ce
  let fullFunctionName := ce.className ++ "." ++ ce.currentFunctionName
  let ce := writeVMFunction ce fullFunctionName (varCount ce.subroutineSymbolTable .var)
  let ce ← parseStatements fuel ce
  requireSymbol ce '\x7d'

/-- `Declarations.c:parseSubroutine`: reset the subroutine table, skip the
subroutine-kind keyword and the return type without inspecting them,
record the name, then parameters and body.  (`setFunctionName` on the VM
writer stores a string that no embedded emission reads.) -/
def parseSubroutine (fuel : Nat) (ce : CompilationEngine) : Except String CompilationEngine := do
  let ce := { ce with subroutineSymbolTable := initSymbolTable }
  let ce := advance ce
  let ce := advance ce
  let functionName := getToken ce
  let ce := { ce with currentFunctionName := functionName }
  let ce := advance ce
  let ce ← requireSymbol ce '('
  let ce ← parseParameterList fuel ce
  let ce ← requireSymbol ce ')'
  parseSubroutineBody fuel ce

/-- `true` when a VM line is a `call` command. -/
def startsWithCall (l : String) : Bool :=
  l.data.take 5 = ['c', 'a', 'l', 'l', ' ']

/-- Compilation engine at the start of a construct, with a given token
stream, symbol tables and class name (`currentFunctionName = "run"`,
counters zero, no output yet). -/
def mkEngine (tokens : List Token) (classT subT : SymbolTable) (className : String) :
    CompilationEngine :=
  { tokens := tokens, classSymbolTable := classT, subroutineSymbolTable := subT,
    className := className, currentFunctionName := "run",
    labelCounter := 0, vmLabelCounter := 0, output := [] }

/-- Engine positioned at `do g ( ) ;` with empty symbol tables. -/
def doCallEngine : CompilationEngine :=
  mkEngine [.keyword "do", .identifier "g", .symbol '(', .symbol ')', .symbol ';']
    initSymbolTable initSymbolTable "Main"

/-- Engine positioned at the term `obj . f ( 5 )` with empty symbol tables. -/
def termCallEngine : CompilationEngine :=
  mkEngine [.identifier "obj", .symbol '.', .identifier "f", .symbol '(', .intConst 5, .symbol ')']
    initSymbolTable initSymbolTable "Main"

/-- Engine positioned at `let a [ i ] = a [ i ] + 1 ;` with `a` a local
(VAR) at index 0 and `i` a local (VAR) at index 1, as in the spec's
array-assignment scenario. -/
def letArrayEngine : CompilationEngine :=
  mkEngine
    [.keyword "let", .identifier "a", .symbol '[', .identifier "i", .symbol ']',
     .symbol '=', .identifier "a", .symbol '[', .identifier "i", .symbol ']',
     .symbol '+', .intConst 1, .symbol ';']
    initSymbolTable
    (define (define initSymbolTable "a" "Array" .var) "i" "int" .var)
    "Main"

/-- Output of the compiled `let a[i] = a[i] + 1;` statement. -/
def letArrayOutput : List String :=
  ["push local 1", "add", "push local 1", "push local 0", "add",
   "pop pointer 1", "push that 0", "push constant 1", "add", "pop local 0"]

/-- Engine positioned at `constructor Point new ( ) { }` in a class with
two FIELD variables. -/
def ctorEngine : CompilationEngine :=
  mkEngine
    [.keyword "constructor", .identifier "Point", .identifier "new",
     .symbol '(', .symbol ')', .symbol '\x7b', .symbol '\x7d']
    (define (define initSymbolTable "x" "int" .field) "y" "int" .field)
    initSymbolTable "Point"

/-- Engine positioned at `method void run ( ) { }`. -/
def methodEngine : CompilationEngine :=
  mkEngine
    [.keyword "method", .keyword "void", .identifier "run",
     .symbol '(', .symbol ')', .symbol '\x7b', .symbol '\x7d']
    initSymbolTable initSymbolTable "Point"

end Compiler

/-!
## Theorems

Helper lemmas first, then one theorem per claim (with witnesses and
counterexamples where required).
-/

namespace Assembler

theorem contains_append_left {l1 l2 : List (String × Nat)} {n : String}
    (h : contains l1 n = true) : contains (l1 ++ l2) n = true := by
  induction l1 with
  | nil => simp [contains] at h
  | cons p rest ih =>
    by_cases hm : p.1 = n
    · simp [contains, hm]
    · simp only [contains, hm, if_false, List.cons_append] at h ⊢
      simpa [contains, hm] using ih h

theorem getAddress_append_left {l1 l2 : List (String × Nat)} {n : String}
    (h : contains l1 n = true) : getAddress (l1 ++ l2) n = getAddress l1 n := by
  induction l1 with
  | nil => simp [contains] at h
  | cons p rest ih =>
    by_cases hm : p.1 = n
    · simp [getAddress, hm]
    · simp only [contains, hm, if_false] at h
      simpa [getAddress, hm] using ih h

theorem contains_append_snoc_self (l : List (String × Nat)) (n : String) (a : Nat) :
    contains (l ++ [(n, a)]) n = true := by
  induction l with
  | nil => simp [contains]
  | cons p rest ih =>
    by_cases hm : p.1 = n <;> simp [contains, hm, ih]

theorem getAddress_append_snoc_self {l : List (String × Nat)} {n : String} (a : Nat)
    (h : contains l n = false) : getAddress (l ++ [(n, a)]) n = a := by
  induction l with
  | nil => simp [getAddress]
  | cons p rest ih =>
    by_cases hm : p.1 = n
    · simp [contains, hm] at h
    · simp only [contains, hm, if_false] at h
      simpa [getAddress, hm] using ih h

theorem addEntry_preserves {t : SymbolTable} {n : String} (s : String) (a : Nat)
    (h : contains t.entries n = true) :
    contains (addEntry t s a).entries n = true ∧
    getAddress (addEntry t s a).entries n = getAddress t.entries n := by
  unfold addEntry
  split
  · exact ⟨h, rfl⟩
  · exact ⟨contains_append_left h, getAddress_append_left h⟩

theorem runAddEntries_preserves (ops : List (String × Nat)) (t : SymbolTable) (n : String)
    (h : contains t.entries n = true) :
    contains (runAddEntries t ops).entries n = true ∧
    getAddress (runAddEntries t ops).entries n = getAddress t.entries n := by
  induction ops generalizing t with
  | nil => exact ⟨h, rfl⟩
  | cons p rest ih =>
    have h1 := addEntry_preserves (t := t) p.1 p.2 h
    have h2 := ih (addEntry t p.1 p.2) h1.1
    exact ⟨h2.1, h2.2.trans h1.2⟩

/-- C7: once the assembler symbol map binds a name, any later sequence of
`addEntry` calls leaves the stored address unchanged; consequently each
predefined symbol (`SP=0 … KBD=24576`) resolves to its initial address no
matter which entries a source program adds. -/
theorem claim7_addEntry_never_remaps :
    (∀ (t : SymbolTable) (ops : List (String × Nat)) (n : String),
      contains t.entries n = true →
      getAddress (runAddEntries t ops).entries n = getAddress t.entries n) ∧
    (∀ (ops : List (String × Nat)) (p : String × Nat), p ∈ predefinedSymbols →
      getAddress (runAddEntries initSymbolTable ops).entries p.1 = p.2) := by
  constructor
  · intro t ops n h
    exact (runAddEntries_preserves ops t n h).2
  · intro ops p hp
    have hc : contains initSymbolTable.entries p.1 = true ∧
        getAddress initSymbolTable.entries p.1 = p.2 := by
      simp only [predefinedSymbols] at hp
      fin_cases hp <;> exact ⟨by decide, by decide⟩
    exact ((runAddEntries_preserves ops initSymbolTable p.1 hc.1).2).trans hc.2

/-- Witness for C7: an attempted remap `("SP", 999)` followed by a fresh
entry leaves `SP` bound to its original address and `KBD` at 24576. -/
theorem claim7_witness :
    getAddress (runAddEntries initSymbolTable [("SP", 999), ("i", 16)]).entries "SP" =
      getAddress initSymbolTable.entries "SP" ∧
    getAddress (runAddEntries initSymbolTable [("SP", 999), ("i", 16)]).entries "KBD" = 24576 :=
  ⟨claim7_addEntry_never_remaps.1 initSymbolTable [("SP", 999), ("i", 16)] "SP" (by decide),
   claim7_addEntry_never_remaps.2 [("SP", 999), ("i", 16)] ("KBD", 24576) (by decide)⟩

theorem processSymbol_fst_of_contains {t : SymbolTable} {s : String}
    (h : contains t.entries s = true) : (processSymbol t s).1 = t := by
  simp [processSymbol, h]

theorem processSymbol_ram_of_fresh {t : SymbolTable} {s : String}
    (h : contains t.entries s = false) :
    (processSymbol t s).1.ramAddress = t.ramAddress + 1 := by
  simp [processSymbol, addEntry, h]

theorem processSymbol_contains_self (t : SymbolTable) (s : String) :
    contains (processSymbol t s).1.entries s = true := by
  by_cases h : contains t.entries s
  · simp [processSymbol, h]
  · simp [processSymbol, addEntry, h, contains_append_snoc_self]

theorem processSymbol_preserves {t : SymbolTable} {n : String} (s : String)
    (h : contains t.entries n = true) :
    contains (processSymbol t s).1.entries n = true ∧
    getAddress (processSymbol t s).1.entries n = getAddress t.entries n := by
  by_cases hc : contains t.entries s
  · rw [processSymbol_fst_of_contains hc]
    exact ⟨h, rfl⟩
  · have hc2 : contains t.entries s = false := by simpa using hc
    have he : (processSymbol t s).1.entries = t.entries ++ [(s, t.ramAddress)] := by
      simp [processSymbol, addEntry, hc2]
    rw [he]
    exact ⟨contains_append_left h, getAddress_append_left h⟩

theorem freshAssignments_range (syms : List String) (t : SymbolTable) :
    freshAssignments t syms = List.range' t.ramAddress (freshAssignments t syms).length := by
  induction syms generalizing t with
  | nil => rfl
  | cons s rest ih =>
    by_cases h : contains t.entries s
    · simp only [freshAssignments, h, if_true]
      rw [processSymbol_fst_of_contains h]
      exact ih t
    · have h2 : contains t.entries s = false := by simpa using h
      simp only [freshAssignments, h2, if_false, List.length_cons, List.range'_succ]
      have := ih (processSymbol t s).1
      rw [processSymbol_ram_of_fresh h2] at this
      exact congrArg (t.ramAddress :: ·) this

theorem runPass2_resolves {s : String} (syms : List String) (t : SymbolTable)
    (h : contains t.entries s = true) :
    ∀ p ∈ syms.zip (runPass2 t syms), p.1 = s → p.2 = getAddress t.entries s := by
  induction syms generalizing t with
  | nil =>
    intro p hp
    simp [runPass2] at hp
  | cons s0 rest ih =>
    intro p hp hps
    have hrw : runPass2 t (s0 :: rest) =
        (processSymbol t s0).2 :: runPass2 (processSymbol t s0).1 rest := rfl
    rw [hrw, List.zip_cons_cons] at hp
    rcases List.mem_cons.mp hp with he | ht
    · subst he
      have h1 : s0 = s := hps
      subst h1
      exact (processSymbol_preserves (t := t) (n := s0) s0 h).2
    · have hpre := processSymbol_preserves (t := t) (n := s) s0 h
      exact (ih (processSymbol t s0).1 hpre.1 p ht hps).trans hpre.2

theorem runPass2_consistent (syms : List String) (t : SymbolTable) :
    ∀ p ∈ syms.zip (runPass2 t syms), ∀ q ∈ syms.zip (runPass2 t syms),
      p.1 = q.1 → p.2 = q.2 := by
  induction syms generalizing t with
  | nil =>
    intro p hp
    simp [runPass2] at hp
  | cons s0 rest ih =>
    intro p hp q hq hpq
    have hrw : runPass2 t (s0 :: rest) =
        (processSymbol t s0).2 :: runPass2 (processSymbol t s0).1 rest := rfl
    rw [hrw, List.zip_cons_cons] at hp hq
    have hself := processSymbol_contains_self t s0
    rcases List.mem_cons.mp hp with hpe | hpt <;> rcases List.mem_cons.mp hq with hqe | hqt
    · rw [hpe, hqe]
    · subst hpe
      have hq1 : q.1 = s0 := hpq.symm
      exact (runPass2_resolves rest (processSymbol t s0).1 hself q hqt hq1).symm
    · subst hqe
      have hp1 : p.1 = s0 := hpq
      exact runPass2_resolves rest (processSymbol t s0).1 hself p hpt hp1
    · exact ih (processSymbol t s0).1 p hpt q hqt hpq

/-- C8: during the second pass, symbols absent from the map at first use
get strictly increasing consecutive RAM addresses starting at 16 in order
of first occurrence, and every later use of the same symbol resolves to
the same address. -/
theorem claim8_variable_allocation (t : SymbolTable) (syms : List String)
    (h : t.ramAddress = 16) :
    freshAssignments t syms = List.range' 16 (freshAssignments t syms).length ∧
    (∀ p ∈ syms.zip (runPass2 t syms), ∀ q ∈ syms.zip (runPass2 t syms),
      p.1 = q.1 → p.2 = q.2) :=
  ⟨h ▸ freshAssignments_range syms t, runPass2_consistent syms t⟩

/-- Witness for C8: the program `@i @j @i` allocates `i → 16`, `j → 17`
and reuses `16` for the second `@i`. -/
theorem claim8_witness :
    freshAssignments initSymbolTable ["i", "j", "i"] =
      List.range' 16 (freshAssignments initSymbolTable ["i", "j", "i"]).length ∧
    runPass2 initSymbolTable ["i", "j", "i"] = [16, 17, 16] :=
  ⟨(claim8_variable_allocation initSymbolTable ["i", "j", "i"] (by decide)).1, by decide⟩

theorem bits15_eq_bigEndian (m : Nat) :
    String.mk ('0' :: bits15 m) = bigEndian15 m := by
  unfold bits15 bigEndian15
  simp only [Nat.shiftRight_eq_div_pow, Nat.and_one_is_mod]

/-- C6: a numeric A-instruction in `[0, 32767]` emits `0` followed by the
15-bit big-endian representation of its value; any value outside the range
(including `@32768` and `@-1`, both of which `isNumber` classifies as
numeric) makes `convertAddress` fail instead of emitting; `@32767` gives
`0111111111111111` and `@21` gives `0000000000010101`. -/
theorem claim6_convertAddress :
    (∀ s : String, 0 ≤ Hack.atoi s → Hack.atoi s ≤ 32767 →
      convertAddress s = .ok (bigEndian15 (Hack.atoi s).toNat)) ∧
    (∀ s : String, Hack.atoi s < 0 ∨ 32767 < Hack.atoi s →
      convertAddress s = .error "Address out of range") ∧
    convertAddress "32767" = .ok "0111111111111111" ∧
    convertAddress "21" = .ok "0000000000010101" ∧
    isNumber "32768" = true ∧ convertAddress "32768" = .error "Address out of range" ∧
    isNumber "-1" = true ∧ convertAddress "-1" = .error "Address out of range" := by
  refine ⟨?_, ?_, rfl, rfl, rfl, rfl, rfl, rfl⟩
  · intro s h1 h2
    unfold convertAddress
    rw [if_neg (by omega)]
    rw [bits15_eq_bigEndian]
  · intro s h
    unfold convertAddress
    rw [if_pos (by omega)]

/-- Witness for C6: instantiation of the in-range clause at `@21`. -/
theorem claim6_witness :
    convertAddress "21" = .ok (bigEndian15 (Hack.atoi "21").toNat) :=
  claim6_convertAddress.1 "21" (by decide) (by decide)

/-- Counterexample for C4: the C-instruction `D=D+D` has the unknown comp
mnemonic `D+D`, yet the assembler silently emits the 16-character binary
line `1110000000010000` (comp field `0000000`) instead of reporting an
error. -/
theorem claim4_counterexample :
    getComp "D=D+D" = "D+D" ∧
    isCompMnemonic "D+D" = false ∧
    assembleC "D=D+D" = "1110000000010000" ∧
    (assembleC "D=D+D").length = 16 := by
  refine ⟨rfl, by decide, rfl, rfl⟩

/-- C4 (amended): unknown mnemonics are not rejected: `convertDest`,
`convertComp` and `convertJump` fall back to the null codes `000`,
`0000000` and `000`, and a 16-character binary line is still emitted. -/
theorem claim4_unknown_mnemonic_fallback (d c j : String)
    (hd : isDestMnemonic d = false)
    (hc : isCompMnemonic c = false)
    (hj : isJumpMnemonic j = false) :
    convertDest (some d) = "000" ∧
    convertComp (some c) = "0000000" ∧
    convertJump (some j) = "000" ∧
    emitCCommand (some d) (some c) (some j) = "1110000000000000" := by
  simp only [isDestMnemonic, decide_eq_false_iff_not, not_or] at hd
  simp only [isCompMnemonic, decide_eq_false_iff_not, not_or] at hc
  simp only [isJumpMnemonic, decide_eq_false_iff_not, not_or] at hj
  have e1 : convertDest (some d) = "000" := by
    simp [convertDest, hd]
  have e2 : convertComp (some c) = "0000000" := by
    simp [convertComp, hc]
  have e3 : convertJump (some j) = "000" := by
    simp [convertJump, hj]
  refine ⟨e1, e2, e3, ?_⟩
  unfold emitCCommand
  rw [e1, e2, e3]
  decide

/-- Witness for C4: the unknown mnemonics `XD`, `D+D`, `JXX` all fall back
to the null codes. -/
theorem claim4_witness :
    convertDest (some "XD") = "000" ∧
    convertComp (some "D+D") = "0000000" ∧
    convertJump (some "JXX") = "000" ∧
    emitCCommand (some "XD") (some "D+D") (some "JXX") = "1110000000000000" :=
  claim4_unknown_mnemonic_fallback "XD" "D+D" "JXX" (by decide) (by decide) (by decide)

end Assembler

namespace VM

/-- C9: directory mode prepends the bootstrap — the four instructions
setting `SP = 256` followed by the full `call Sys.init 0` template — before
any translated file's commands, and single-file mode emits only the
translation of the file's own lines, with no bootstrap. -/
theorem claim9_bootstrap :
    (∀ (files : List (String × List String)) (out : List String),
      translateDir files = .ok out →
      ∃ rest, out = (writeInit initCWState).2 ++ rest) ∧
    (writeInit initCWState).2 =
      ["@256", "D=A", "@SP", "M=D"] ++ (writeCall initCWState "Sys.init" 0).2 ∧
    (writeCall initCWState "Sys.init" 0).2 =
      ["@RETURN0", "D=A", "@SP", "A=M", "M=D", "@SP", "M=M+1",
       "@LCL", "D=M", "@SP", "A=M", "M=D", "@SP", "M=M+1",
       "@ARG", "D=M", "@SP", "A=M", "M=D", "@SP", "M=M+1",
       "@THIS", "D=M", "@SP", "A=M", "M=D", "@SP", "M=M+1",
       "@THAT", "D=M", "@SP", "A=M", "M=D", "@SP", "M=M+1",
       "@SP", "D=M", "@5", "D=D-A", "@ARG", "M=D",
       "@SP", "D=M", "@LCL", "M=D",
       "@Sys.init", "0;JMP", "(RETURN0)"] ∧
    translateDir [] = .ok ((writeInit initCWState).2) ∧
    (∀ (path : String) (lines : List String) (out : List String),
      translateSingle path lines = .ok out →
      ∃ st, translateLines (setFile initCWState (singleStem path)) lines = .ok (st, out)) ∧
    translateSingle "foo.vm" [] = .ok ([] : List String) := by
  refine ⟨?_, rfl, rfl, rfl, ?_, rfl⟩
  · intro files out h
    unfold translateDir at h
    cases htf : translateFiles (writeInit initCWState).1 files with
    | ok p =>
      rw [htf] at h
      injection h with h2
      exact ⟨p.2, h2.symm⟩
    | error e =>
      rw [htf] at h
      cases h
  · intro path lines out h
    unfold translateSingle at h
    by_cases hvm : endsWithVm path
    · rw [if_pos hvm] at h
      cases htl : translateLines (setFile initCWState (singleStem path)) lines with
      | ok p =>
        rw [htl] at h
        injection h with h2
        exact ⟨p.1, by rw [← h2]⟩
      | error e =>
        rw [htl] at h
        cases h
    · rw [if_neg hvm] at h
      cases h

/-- Witness for C9: translating the directory `[foo.vm]` containing
`push constant 7` produces the bootstrap followed by the push template,
and single-file mode on the same content produces just the push template. -/
theorem claim9_witness :
    (∃ rest, ((writeInit initCWState).2 ++ ["@7", "D=A", "@SP", "A=M", "M=D", "@SP", "M=M+1"]) =
      (writeInit initCWState).2 ++ rest) ∧
    (∃ st, translateLines (setFile initCWState (singleStem "foo.vm")) ["push constant 7"] =
      .ok (st, ["@7", "D=A", "@SP", "A=M", "M=D", "@SP", "M=M+1"])) :=
  ⟨claim9_bootstrap.1 [("foo.vm", ["push constant 7"])]
      ((writeInit initCWState).2 ++ ["@7", "D=A", "@SP", "A=M", "M=D", "@SP", "M=M+1"]) (by rfl),
   claim9_bootstrap.2.2.2.2.1 "foo.vm" ["push constant 7"]
      ["@7", "D=A", "@SP", "A=M", "M=D", "@SP", "M=M+1"] (by rfl)⟩

/-- C5 (code-bug evaluation): in directory mode `setFile` receives the
directory entry's full name, extension included, so `push static 3` from
`foo.vm` references `@foo.vm.3` — not `@foo.3` as the claim requires —
while single-file mode strips the extension and does emit `@foo.3`. -/
theorem claim5_static_naming_eval :
    writePushPop (setFile initCWState "foo.vm") .push "static" "3" =
      ["@foo.vm.3", "D=M", "@SP", "A=M", "M=D", "@SP", "M=M+1"] ∧
    translateDir [("foo.vm", ["push static 3"])] =
      .ok ((writeInit initCWState).2 ++
           ["@foo.vm.3", "D=M", "@SP", "A=M", "M=D", "@SP", "M=M+1"]) ∧
    "@foo.3" ∉ (writeInit initCWState).2 ++
      ["@foo.vm.3", "D=M", "@SP", "A=M", "M=D", "@SP", "M=M+1"] ∧
    translateSingle "foo.vm" ["push static 3"] =
      .ok ["@foo.3", "D=M", "@SP", "A=M", "M=D", "@SP", "M=M+1"] :=
  ⟨rfl, rfl, by decide, rfl⟩

end VM



namespace Compiler

/-- C1 (code-bug evaluation): `parseSubroutineCall` emits no `call`
command at all — `do g();` compiles to just `pop temp 0`, the term
`obj.f(5)` compiles to just `push constant 5` (the argument count 1 is
stored in `labelCounter` but never emitted), and the bare call `g()`
emits nothing; the claim's single `call` with receiver-adjusted argument
count is absent in every shape, as is `push pointer 0`. -/
theorem claim1_no_call_emitted :
    (parseDo 50 doCallEngine).map (·.output) = .ok ["pop temp 0"] ∧
    (parseDo 50 doCallEngine).map (fun ce => ce.output.countP startsWithCall) = .ok 0 ∧
    (parseTerm 50 termCallEngine).map (fun ce => (ce.output, ce.labelCounter)) =
      .ok (["push constant 5"], 1) ∧
    (parseTerm 50 termCallEngine).map (fun ce => ce.output.countP startsWithCall) = .ok 0 ∧
    (parseSubroutineCall 50 (mkEngine [.identifier "g", .symbol '(', .symbol ')']
        initSymbolTable initSymbolTable "Main")).map (·.output) = .ok [] :=
  ⟨rfl, rfl, rfl, rfl, rfl⟩

/-- C2 (code-bug evaluation): after `function <Class>.<name> <nVars>`
nothing more is emitted — a constructor of a class with two FIELDs
compiles to just `function Point.new 0` (no `push constant 2`,
`call Memory.alloc 1`, `pop pointer 0`) and a method to just
`function Point.run 0` (no `push argument 0`, `pop pointer 0`). -/
theorem claim2_no_prologue_emitted :
    varCount ctorEngine.classSymbolTable .field = 2 ∧
    (parseSubroutine 50 ctorEngine).map (·.output) = .ok ["function Point.new 0"] ∧
    (parseSubroutine 50 methodEngine).map (·.output) = .ok ["function Point.run 0"] :=
  ⟨rfl, rfl, rfl⟩

/-- C3 (code-bug evaluation): `let a[i] = a[i] + 1;` with `a` at local 0
and `i` at local 1 compiles to the index expression, `add` (with no prior
push of `a`'s base), the RHS, then a direct `pop local 0`; the mandated
`pop temp 0 / pop pointer 1 / push temp 0 / pop that 0` sequence never
appears. -/
theorem claim3_let_array :
    (parseLet 50 letArrayEngine).map (·.output) = .ok letArrayOutput ∧
    letArrayOutput = ["push local 1", "add", "push local 1", "push local 0", "add",
      "pop pointer 1", "push that 0", "push constant 1", "add", "pop local 0"] ∧
    "pop temp 0" ∉ letArrayOutput ∧
    "push temp 0" ∉ letArrayOutput ∧
    "pop that 0" ∉ letArrayOutput ∧
    "pop local 0" ∈ letArrayOutput := by
  refine ⟨rfl, rfl, by decide, by decide, by decide, by decide⟩

/-- C10: `define` always appends a new entry carrying the next per-kind
index, even for a duplicated name, and `kindOf` / `typeOf` / `indexOf`
keep returning the earliest entry for that name: a redefinition in the
same scope is neither rejected nor does it overwrite or shadow the first
binding. -/
theorem claim10_define_append_first_wins (t : SymbolTable) (n ty2 : String) (k : JKind) :
    (define t n ty2 k).entries = t.entries ++ [⟨n, ty2, k, varCount t k⟩] ∧
    ((kindOf t n).isSome = true →
      kindOf (define t n ty2 k) n = kindOf t n ∧
      typeOf (define t n ty2 k) n = typeOf t n ∧
      indexOf (define t n ty2 k) n = indexOf t n) := by
  have happ : (define t n ty2 k).entries = t.entries ++ [⟨n, ty2, k, varCount t k⟩] := by
    cases k <;> rfl
  refine ⟨happ, fun h => ?_⟩
  obtain ⟨e0, he⟩ : ∃ e0, t.entries.find? (fun e => e.name == n) = some e0 := by
    cases hf : t.entries.find? (fun e => e.name == n) with
    | none => simp [kindOf, hf] at h
    | some e0 => exact ⟨e0, rfl⟩
  have hfind : (define t n ty2 k).entries.find? (fun e => e.name == n) = some e0 := by
    rw [happ, List.find?_append, he]
    rfl
  refine ⟨?_, ?_, ?_⟩
  · simp only [kindOf, hfind, he]
  · simp only [typeOf, hfind, he]
  · simp only [indexOf, hfind, he]

/-- Witness for C10: defining `x` twice (first `int`, then `boolean`,
both VAR) keeps every lookup on the first binding. -/
theorem claim10_witness :
    kindOf (define (define initSymbolTable "x" "int" .var) "x" "boolean" .var) "x" =
      kindOf (define initSymbolTable "x" "int" .var) "x" ∧
    typeOf (define (define initSymbolTable "x" "int" .var) "x" "boolean" .var) "x" =
      typeOf (define initSymbolTable "x" "int" .var) "x" ∧
    indexOf (define (define initSymbolTable "x" "int" .var) "x" "boolean" .var) "x" =
      indexOf (define initSymbolTable "x" "int" .var) "x" :=
  (claim10_define_append_first_wins (define initSymbolTable "x" "int" .var) "x" "boolean" .var).2
    (by decide)

end Compiler
